import Mathlib

/-!
# Verification of the holepunch reverse-tunnel client

Shallow embedding of the supervision / forwarding logic of the holepunch
client (Go sources: the current client `main.go` with `mainLoop`,
`connectToSshAndServe`, `forwardOnePort`, `handleClient`,
`connectSshRegularTcp`, `connectSshWebsocket`, and the older
`cmd/holepunch/main.go`).  Effects (dialing, the SSH library, channels) are
represented by explicit oracles/environments; each embedded function returns
a trace recording the externally visible actions the Go code performs.
Errors are represented as `String` (Go `error`).
-/

namespace Holepunch

/-- `Endpoint` from the configuration: `(host, port)`, formatted `host:port`. -/
structure Endpoint where
  host : String
  port : Nat
deriving DecidableEq, Repr

/-- `Endpoint.String()`: `fmt.Sprintf("%s:%d", host, port)`. -/
def Endpoint.render (e : Endpoint) : String :=
  e.host ++ ":" ++ toString e.port

/-- A `Forward` pairs the local service endpoint with the remote listen
endpoint.  (The `Forward` type is declared in a configuration file of the
repository that is not under `src/`; its two fields are read off the uses
`forward.Local` / `forward.Remote` in `main.go`.) -/
structure Forward where
  local_ : Endpoint
  remote : Endpoint
deriving DecidableEq, Repr

/-- `SshServer` part of the configuration, per the fields used in `main.go`
(`conf.SshServer.Username`, `.PrivateKeyFilePath`, `.Address`). -/
structure SshServer where
  username : String
  privateKeyFilePath : String
  address : String
deriving DecidableEq, Repr

/-- The configuration consumed by `connectToSshAndServe` / `mainLoop`:
the SSH server and the ordered list of forwards (`conf.Forwards`). -/
structure Configuration where
  sshServer : SshServer
  forwards : List Forward
deriving DecidableEq, Repr

/-! ## TunnelSession: `connectToSshAndServe` and the forward loop

`connectToSshAndServe` dials+authenticates (one attempt), then for each
configured forward in order calls `forwardOnePort`, whose blocking part is
`sshClient.Listen("tcp", forward.Remote.String())`; the first `Listen`
failure is returned immediately (`return err`), and the deferred
`sshClient.Close()` closes the SSH connection.  If all listens succeed the
function blocks in a `select` on `ctx.Done()` (returns `nil`) versus the
first error from the `listenerStopped` channel (returns that error). -/

/-- What happens while blocked in the `select` of `connectToSshAndServe`
(lines 80–86): either the context is cancelled first, or a listener's
accept-failure report arrives first. -/
inductive ServingEvent where
  | cancelled
  | listenerErr (e : String)
deriving DecidableEq, Repr

/-- The environment of one `connectToSshAndServe` call: the outcome of the
dial/handshake, the outcome of each per-forward `Listen` request (indexed by
position in `conf.Forwards`), and which event ends the serving phase. -/
structure ServeEnv where
  connectResult : Except String Unit
  listenResults : Nat → Except String Unit
  servingEvent : ServingEvent

/-- Trace of one `connectToSshAndServe` call: whether a dial was attempted,
the indices of forwards for which a `Listen` request was issued (in issue
order), whether the deferred `sshClient.Close()` ran, and the returned error
(`none` = Go `nil`). -/
structure ServeTrace where
  dialed : Bool
  issuedListens : List Nat
  sshClosed : Bool
  result : Option String
deriving DecidableEq, Repr

/-- The `for _, forward := range conf.Forwards` loop (lines 72–78): issue
`Listen` requests index by index; the first failure aborts with that error.
Returns the issued indices and the loop outcome. -/
def forwardsLoop (listenResults : Nat → Except String Unit) :
    List Nat → List Nat × Option String
  | [] => ([], none)
  | i :: rest =>
    match listenResults i with
    | .error e => ([i], some e)
    | .ok _ =>
      let t := forwardsLoop listenResults rest
      (i :: t.1, t.2)

/-- `connectToSshAndServe` (lines 43–87), up to the point where it returns. -/
def connectToSshAndServe (conf : Configuration) (env : ServeEnv) : ServeTrace :=
  match env.connectResult with
  | .error e => { dialed := true, issuedListens := [], sshClosed := false, result := some e }
  | .ok _ =>
    let loop := forwardsLoop env.listenResults (List.range conf.forwards.length)
    match loop.2 with
    | some e => { dialed := true, issuedListens := loop.1, sshClosed := true, result := some e }
    | none =>
      match env.servingEvent with
      | .cancelled =>
          { dialed := true, issuedListens := loop.1, sshClosed := true, result := none }
      | .listenerErr e =>
          { dialed := true, issuedListens := loop.1, sshClosed := true, result := some e }

/-- On a suffix of indices starting at `k` whose head fails, the loop stops
at `k`. -/
lemma forwardsLoop_head_fails (listenResults : Nat → Except String Unit)
    (k : Nat) (rest : List Nat) (e : String) (hk : listenResults k = .error e) :
    forwardsLoop listenResults (k :: rest) = ([k], some e) := by
  simp [forwardsLoop, hk]

/-- If every index in `pre` succeeds, the loop runs through `pre` and
continues with the remainder. -/
lemma forwardsLoop_ok_prefix (listenResults : Nat → Except String Unit)
    (pre rest : List Nat) (hpre : ∀ i ∈ pre, listenResults i = .ok ()) :
    forwardsLoop listenResults (pre ++ rest) =
      (pre ++ (forwardsLoop listenResults rest).1,
        (forwardsLoop listenResults rest).2) := by
  induction pre with
  | nil => simp
  | cons a as ih =>
    have ha : listenResults a = .ok () := hpre a (by simp)
    have ih' := ih (fun i hi => hpre i (by simp [hi]))
    simp [forwardsLoop, ha, ih']

/-- C1: listen requests are issued one at a time in configuration order; the
first failure (at index `k`) aborts the sequence — exactly the indices
`0, …, k` were issued, in order — the whole session attempt returns that
error, and the deferred `sshClient.Close()` tears the connection down, so
the caller never receives a partially-serving session. -/
theorem C1_listen_partial_failure (conf : Configuration) (env : ServeEnv)
    (k : Nat) (e : String)
    (hconn : env.connectResult = .ok ())
    (hk : k < conf.forwards.length)
    (hfail : env.listenResults k = .error e)
    (hpre : ∀ i, i < k → env.listenResults i = .ok ()) :
    connectToSshAndServe conf env =
      { dialed := true, issuedListens := List.range (k + 1),
        sshClosed := true, result := some e } := by
  obtain ⟨m, hm⟩ : ∃ m, conf.forwards.length = (k + 1) + m :=
    ⟨conf.forwards.length - (k + 1), by omega⟩
  have hsplit : List.range conf.forwards.length =
      List.range k ++ (k :: (List.range m).map fun x => (k + 1) + x) := by
    rw [hm, List.range_add, List.range_succ]
    simp
  have hpre' : ∀ i ∈ List.range k, env.listenResults i = .ok () := fun i hi =>
    hpre i (List.mem_range.mp hi)
  have hloop : forwardsLoop env.listenResults (List.range conf.forwards.length)
      = (List.range (k + 1), some e) := by
    rw [hsplit, forwardsLoop_ok_prefix _ _ _ hpre',
      forwardsLoop_head_fails _ _ _ _ hfail]
    simp [List.range_succ]
  simp [connectToSshAndServe, hconn, hloop]

/-- Witness for C1 at a concrete configuration of three forwards where the
second `Listen` fails. -/
theorem C1_listen_partial_failure_witness :
    connectToSshAndServe
      { sshServer := { username := "u", privateKeyFilePath := "k", address := "a" },
        forwards :=
          [ { local_ := ⟨"h", 1⟩, remote := ⟨"r", 1⟩ },
            { local_ := ⟨"h", 2⟩, remote := ⟨"r", 2⟩ },
            { local_ := ⟨"h", 3⟩, remote := ⟨"r", 3⟩ } ] }
      { connectResult := .ok (),
        listenResults := fun i => if i = 1 then .error "listen failed" else .ok (),
        servingEvent := .cancelled } =
      { dialed := true, issuedListens := [0, 1], sshClosed := true,
        result := some "listen failed" } := by
  have h := C1_listen_partial_failure
    { sshServer := { username := "u", privateKeyFilePath := "k", address := "a" },
      forwards :=
        [ { local_ := ⟨"h", 1⟩, remote := ⟨"r", 1⟩ },
          { local_ := ⟨"h", 2⟩, remote := ⟨"r", 2⟩ },
          { local_ := ⟨"h", 3⟩, remote := ⟨"r", 3⟩ } ] }
    { connectResult := .ok (),
      listenResults := fun i => if i = 1 then .error "listen failed" else .ok (),
      servingEvent := .cancelled }
    1 "listen failed" rfl (by simp) rfl
    (fun i hi => by
      have : i = 0 := by omega
      subst this
      rfl)
  simpa [List.range_succ] using h

/-! ## ReconnectSupervisor: `mainLoop`

`mainLoop` builds `backoffTime := backoff.ExponentialWithCappedMax(100ms, 2s)`
once, then loops: call `connectToSshAndServe` (each call performs exactly one
connect/dial attempt), then `select` on `ctx.Done()` (if cancelled,
`return nil`), else log and `time.Sleep(backoffTime())`. -/

/-- Models the per-call delay of
`backoff.ExponentialWithCappedMax(100*time.Millisecond, 2*time.Second)`
(gokit library, external to this repository), whose sequence is documented
by the call-site comment in `mainLoop` (line 135):
`// 0ms, 100 ms, 200 ms, 400 ms, 800 ms, 1600 ms, 2000 ms, 2000 ms...`.
`backoffTime n` is the value (in milliseconds) of the `n`-th call, counting
from 0; the closure's internal counter advances on every call and is never
reset. -/
def backoffTime (n : Nat) : Nat :=
  if n = 0 then 0 else min (100 * 2 ^ (n - 1)) 2000

/-- Whether a serve environment gets past dial and all `Listen` requests,
i.e. `connectToSshAndServe` reaches its blocking `select` (the `Serving`
state). -/
def ServeEnv.reachesSelect (conf : Configuration) (env : ServeEnv) : Bool :=
  (match env.connectResult with
    | .ok _ => true
    | .error _ => false) &&
  (match (forwardsLoop env.listenResults (List.range conf.forwards.length)).2 with
    | none => true
    | some _ => false)

/-- Whether this serve attempt ended because the cancellation signal fired
while it was blocked in `Serving` (the `case <-ctx.Done(): return nil` arm). -/
def cancelObservedInServe (conf : Configuration) (env : ServeEnv) : Bool :=
  env.reachesSelect conf && decide (env.servingEvent = .cancelled)

/-- Environment of one `mainLoop` iteration: the serve environment, plus
whether `ctx.Done()` is (already) closed at `mainLoop`'s own `select` check
for reasons other than a cancellation observed during this serve.  Context
cancellation is monotone, so if the serve phase returned via its
`ctx.Done()` arm, the signal is still pending at `mainLoop`'s check —
`IterEnv.ctxDone` accounts for that. -/
structure IterEnv where
  serve : ServeEnv
  doneAtCheck : Bool

/-- `ctx.Done()` as observed by `mainLoop`'s `select` after the serve call
returns. -/
def IterEnv.ctxDone (conf : Configuration) (it : IterEnv) : Bool :=
  it.doneAtCheck || cancelObservedInServe conf it.serve

/-- Trace of a `mainLoop` run: the number of `connectToSshAndServe` calls
(= connect attempts), the arguments of `time.Sleep(backoffTime())` in order,
and `some r` when the loop returned `r` (`none` while still looping when the
schedule ran out). -/
structure MainLoopTrace where
  dials : Nat
  sleeps : List Nat
  result : Option (Option String)
deriving DecidableEq, Repr

/-- The `for` loop of `mainLoop` (lines 146–157), driven by a schedule of
iteration environments; `attempt` is the number of `backoffTime()` calls
made so far (the closure's counter, threaded through, never reset). -/
def mainLoopGo (conf : Configuration) : List IterEnv → Nat → MainLoopTrace
  | [], _ => { dials := 0, sleeps := [], result := none }
  | it :: rest, attempt =>
    if it.ctxDone conf then
      { dials := 1, sleeps := [], result := some none }
    else
      let t := mainLoopGo conf rest (attempt + 1)
      { dials := t.dials + 1, sleeps := backoffTime attempt :: t.sleeps,
        result := t.result }

/-- `mainLoop`'s loop started with a fresh backoff closure (counter 0). -/
def mainLoopRun (conf : Configuration) (sched : List IterEnv) : MainLoopTrace :=
  mainLoopGo conf sched 0

lemma mainLoopGo_sleeps (conf : Configuration) :
    ∀ (sched : List IterEnv) (a : Nat),
      (∀ it ∈ sched, it.ctxDone conf = false) →
      (mainLoopGo conf sched a).sleeps =
        (List.range sched.length).map fun i => backoffTime (a + i)
  | [], _, _ => by simp [mainLoopGo]
  | it :: rest, a, h => by
    have hit : it.ctxDone conf = false := h it (by simp)
    have ih := mainLoopGo_sleeps conf rest (a + 1) fun x hx => h x (by simp [hx])
    simp only [mainLoopGo, hit, Bool.false_eq_true, if_false, ih,
      List.length_cons, List.range_succ_eq_map, List.map_cons, List.map_map]
    refine congrArg₂ List.cons (congrArg backoffTime (by omega)) ?_
    refine List.map_congr_left fun i _ => ?_
    show backoffTime (a + 1 + i) = backoffTime (a + Nat.succ i)
    exact congrArg backoffTime (by omega)

/-- A one-forward configuration used for concrete runs. -/
def confOne : Configuration :=
  { sshServer := { username := "u", privateKeyFilePath := "k", address := "a" },
    forwards := [ { local_ := ⟨"h", 1⟩, remote := ⟨"r", 1⟩ } ] }

/-- An iteration whose serve attempt fails at the dial and that is not
cancelled. -/
def iterDialFail : IterEnv :=
  { serve := { connectResult := .error "dial refused",
               listenResults := fun _ => .ok (),
               servingEvent := .listenerErr "unused" },
    doneAtCheck := false }

/-- An iteration that reaches `Serving` and is then cancelled. -/
def iterCancel : IterEnv :=
  { serve := { connectResult := .ok (),
               listenResults := fun _ => .ok (),
               servingEvent := .cancelled },
    doneAtCheck := false }

/-- C2 counterexample: on a run of two failed connect attempts, the sleeps
are 0 ms then 100 ms — the first sleep (between attempt 0 and attempt 1) is
0 ms, not min(100·2^0, 2000) = 100 ms as the claim states. -/
theorem C2_backoff_counterexample :
    (mainLoopRun confOne [iterDialFail, iterDialFail]).sleeps = [0, 100] ∧
    ¬ (mainLoopRun confOne [iterDialFail, iterDialFail]).sleeps =
        [min (100 * 2 ^ 0) 2000, min (100 * 2 ^ 1) 2000] := by
  constructor
  · rfl
  · intro h
    rw [show (mainLoopRun confOne [iterDialFail, iterDialFail]).sleeps = [0, 100] from rfl] at h
    exact absurd h (by decide)

/-- C2 amended: the delay slept between reconnect attempt `n` and attempt
`n+1` is `backoffTime n`, which is 0 ms for n = 0 and
min(100·2^(n-1), 2000) ms for n ≥ 1 — i.e. the sequence
0, 100, 200, 400, 800, 1600, 2000, 2000, … — and the attempt counter is
threaded through the whole run, never reset. -/
theorem C2_backoff_sequence (conf : Configuration) (sched : List IterEnv)
    (h : ∀ it ∈ sched, it.ctxDone conf = false) :
    (mainLoopRun conf sched).sleeps = (List.range sched.length).map backoffTime ∧
    backoffTime 0 = 0 ∧
    (∀ n, 1 ≤ n → backoffTime n = min (100 * 2 ^ (n - 1)) 2000) ∧
    (List.range 8).map backoffTime = [0, 100, 200, 400, 800, 1600, 2000, 2000] := by
  refine ⟨?_, rfl, ?_, by decide⟩
  · have := mainLoopGo_sleeps conf sched 0 h
    simpa [mainLoopRun] using this
  · intro n hn
    simp [backoffTime, Nat.pos_iff_ne_zero.mp hn]

/-- Witness for C2's amended theorem on a concrete two-iteration run. -/
theorem C2_backoff_sequence_witness :
    (mainLoopRun confOne [iterDialFail, iterDialFail]).sleeps =
      (List.range 2).map backoffTime ∧
    backoffTime 0 = 0 ∧
    (∀ n, 1 ≤ n → backoffTime n = min (100 * 2 ^ (n - 1)) 2000) ∧
    (List.range 8).map backoffTime = [0, 100, 200, 400, 800, 1600, 2000, 2000] :=
  C2_backoff_sequence confOne [iterDialFail, iterDialFail] (by decide)

lemma mainLoopGo_cancel (conf : Configuration) :
    ∀ (pre : List IterEnv) (it : IterEnv) (post : List IterEnv) (a : Nat),
      (∀ x ∈ pre, x.ctxDone conf = false) →
      it.ctxDone conf = true →
      (mainLoopGo conf (pre ++ it :: post) a).result = some none ∧
      (mainLoopGo conf (pre ++ it :: post) a).dials = pre.length + 1
  | [], it, post, a, _, hit => by simp [mainLoopGo, hit]
  | x :: pre, it, post, a, h, hit => by
    have hx : x.ctxDone conf = false := h x (by simp)
    have ih := mainLoopGo_cancel conf pre it post (a + 1)
      (fun y hy => h y (by simp [hy])) hit
    simp only [List.cons_append, mainLoopGo, hx, Bool.false_eq_true, if_false]
    exact ⟨ih.1, by simp [ih.2]⟩

/-- If the serve phase reached `Serving` and the cancellation signal fired
there, `connectToSshAndServe` returns `nil` (and the deferred close ran). -/
lemma connectToSshAndServe_cancelled (conf : Configuration) (env : ServeEnv)
    (h : cancelObservedInServe conf env = true) :
    (connectToSshAndServe conf env).result = none ∧
    (connectToSshAndServe conf env).sshClosed = true := by
  unfold cancelObservedInServe ServeEnv.reachesSelect at h
  rw [Bool.and_eq_true, Bool.and_eq_true] at h
  obtain ⟨⟨h1, h2⟩, h3⟩ := h
  rw [decide_eq_true_eq] at h3
  rcases hc : env.connectResult with e | u
  · simp [hc] at h1
  · rcases hl : (forwardsLoop env.listenResults (List.range conf.forwards.length)).2 with _ | e
    · rcases he : env.servingEvent with _ | e
      · simp [connectToSshAndServe, hc, hl, he]
      · simp [he] at h3
    · simp [hl] at h2

/-- C3: if the cancellation signal fires while the supervisor is in
`Serving` (after `pre` earlier iterations that did not return), the serve
call returns `nil`, `mainLoop` returns `nil` (terminal `Stopped` with
success), and exactly `pre.length + 1` connect attempts were made in the
whole run — zero dial attempts after the signal. -/
theorem C3_cancel_in_serving (conf : Configuration) (pre post : List IterEnv)
    (it : IterEnv)
    (hpre : ∀ x ∈ pre, x.ctxDone conf = false)
    (hit : cancelObservedInServe conf it.serve = true) :
    (connectToSshAndServe conf it.serve).result = none ∧
    (mainLoopRun conf (pre ++ it :: post)).result = some none ∧
    (mainLoopRun conf (pre ++ it :: post)).dials = pre.length + 1 := by
  have hdone : it.ctxDone conf = true := by
    simp [IterEnv.ctxDone, hit]
  have hm := mainLoopGo_cancel conf pre it post 0 hpre hdone
  exact ⟨(connectToSshAndServe_cancelled conf it.serve hit).1, hm.1, hm.2⟩

/-- Witness for C3: one failed attempt, then cancellation during `Serving`,
then a further (never executed) scheduled iteration. -/
theorem C3_cancel_in_serving_witness :
    (connectToSshAndServe confOne iterCancel.serve).result = none ∧
    (mainLoopRun confOne ([iterDialFail] ++ iterCancel :: [iterDialFail])).result
      = some none ∧
    (mainLoopRun confOne ([iterDialFail] ++ iterCancel :: [iterDialFail])).dials
      = [iterDialFail].length + 1 :=
  C3_cancel_in_serving confOne [iterDialFail] [iterDialFail] iterCancel
    (by decide) (by decide)

/-! ## ForwardListener: the accept loop of `forwardOnePort`

The goroutine spawned by `forwardOnePort` (lines 100–115) loops on
`listener.Accept()`; on success it spawns `handleClient` and continues; on
failure it sends `fmt.Errorf("Accept(): %s", err)` on `listenerStopped` and
returns (the deferred `listener.Close()` runs).  The channel is created in
`connectToSshAndServe` (line 70) as `make(chan error, len(conf.Forwards))`. -/

/-- Capacity of the `listenerStopped` channel:
`make(chan error, len(conf.Forwards))`. -/
def listenerStoppedCapacity (conf : Configuration) : Nat :=
  conf.forwards.length

/-- Trace of one accept loop, run with bounded fuel (the loop itself is
unbounded): number of `Accept()` calls, accepted connections handed to
`handleClient` (in order), error reports sent on `listenerStopped`, whether
the goroutine returned, and whether the deferred `listener.Close()` ran. -/
structure AcceptTrace where
  acceptCalls : Nat
  spawned : List Nat
  reports : List String
  terminated : Bool
  listenerClosed : Bool
deriving DecidableEq, Repr

/-- The accept loop; `accepts i` is the outcome of the `i`-th `Accept()`
call (a connection, or an error). -/
def acceptLoop (accepts : Nat → Except String Nat) : Nat → Nat → AcceptTrace
  | 0, _ =>
      { acceptCalls := 0, spawned := [], reports := [],
        terminated := false, listenerClosed := false }
  | fuel + 1, i =>
    match accepts i with
    | .error e =>
        { acceptCalls := 1, spawned := [], reports := ["Accept(): " ++ e],
          terminated := true, listenerClosed := true }
    | .ok c =>
        let t := acceptLoop accepts fuel (i + 1)
        { acceptCalls := t.acceptCalls + 1, spawned := c :: t.spawned,
          reports := t.reports, terminated := t.terminated,
          listenerClosed := t.listenerClosed }

/-- Any accept loop sends at most one report, ever. -/
lemma acceptLoop_reports_le_one (accepts : Nat → Except String Nat) :
    ∀ (fuel i : Nat), (acceptLoop accepts fuel i).reports.length ≤ 1
  | 0, _ => by simp [acceptLoop]
  | fuel + 1, i => by
    rcases h : accepts i with e | c
    · simp [acceptLoop, h]
    · simpa [acceptLoop, h] using acceptLoop_reports_le_one accepts fuel (i + 1)

lemma list_sum_le_length (l : List Nat) (h : ∀ x ∈ l, x ≤ 1) :
    l.sum ≤ l.length := by
  induction l with
  | nil => simp
  | cons a as ih =>
    have ha := h a (by simp)
    have has := ih fun x hx => h x (by simp [hx])
    simp only [List.sum_cons, List.length_cons]
    omega

lemma acceptLoop_fail_at (accepts : Nat → Except String Nat) (cs : Nat → Nat)
    (e : String) :
    ∀ (k fuel i : Nat), k < fuel →
      (∀ j, j < k → accepts (i + j) = .ok (cs (i + j))) →
      accepts (i + k) = .error e →
      acceptLoop accepts fuel i =
        { acceptCalls := k + 1,
          spawned := (List.range k).map fun j => cs (i + j),
          reports := ["Accept(): " ++ e],
          terminated := true, listenerClosed := true }
  | 0, fuel, i, hk, _, hfail => by
    obtain ⟨f, rfl⟩ : ∃ f, fuel = f + 1 := ⟨fuel - 1, by omega⟩
    have : accepts i = .error e := by simpa using hfail
    simp [acceptLoop, this]
  | k + 1, fuel, i, hk, hok, hfail => by
    obtain ⟨f, rfl⟩ : ∃ f, fuel = f + 1 := ⟨fuel - 1, by omega⟩
    have h0 : accepts i = .ok (cs i) := by simpa using hok 0 (by omega)
    have ih := acceptLoop_fail_at accepts cs e k f (i + 1) (by omega)
      (fun j hj => by
        have := hok (j + 1) (by omega)
        simpa [show i + (j + 1) = i + 1 + j by omega] using this)
      (by simpa [show i + (k + 1) = i + 1 + k by omega] using hfail)
    simp only [acceptLoop, h0, ih]
    refine congrArg₂ (fun a b => AcceptTrace.mk a b ["Accept(): " ++ e] true true)
      rfl ?_
    rw [List.range_succ_eq_map, List.map_cons, List.map_map]
    refine congrArg₂ List.cons (congrArg cs (by omega)) ?_
    refine List.map_congr_left fun j _ => ?_
    show cs (i + 1 + j) = cs (i + Nat.succ j)
    exact congrArg cs (by omega)

/-- C5: when the `(k+1)`-st `Accept()` call fails, the listener sends exactly
one (wrapped) error report and terminates without retrying accept (exactly
`k+1` accept calls); moreover every accept loop sends at most one report,
and the `listenerStopped` channel's capacity equals the number of configured
forwards, so the total number of reports from the forwards' listeners never
exceeds the capacity (no sender blocks). -/
theorem C5_accept_failure_single_report (conf : Configuration)
    (accepts : Nat → Except String Nat) (cs : Nat → Nat) (e : String)
    (k fuel : Nat) (hk : k < fuel)
    (hok : ∀ j, j < k → accepts j = .ok (cs j))
    (hfail : accepts k = .error e) :
    acceptLoop accepts fuel 0 =
      { acceptCalls := k + 1, spawned := (List.range k).map cs,
        reports := ["Accept(): " ++ e],
        terminated := true, listenerClosed := true } ∧
    (∀ (acc : Nat → Except String Nat) (f i : Nat),
        (acceptLoop acc f i).reports.length ≤ 1) ∧
    listenerStoppedCapacity conf = conf.forwards.length ∧
    (∀ (fam : Nat → Nat → Except String Nat) (fuels : Nat → Nat),
        ((List.range conf.forwards.length).map fun j =>
            (acceptLoop (fam j) (fuels j) 0).reports.length).sum ≤
          listenerStoppedCapacity conf) := by
  refine ⟨?_, fun acc f i => acceptLoop_reports_le_one acc f i, rfl, ?_⟩
  · have := acceptLoop_fail_at accepts cs e k fuel 0 hk
      (fun j hj => by simpa using hok j hj) (by simpa using hfail)
    simpa using this
  · intro fam fuels
    have hle := list_sum_le_length
      ((List.range conf.forwards.length).map fun j =>
        (acceptLoop (fam j) (fuels j) 0).reports.length)
      (by
        intro x hx
        obtain ⟨j, _, rfl⟩ := List.mem_map.mp hx
        exact acceptLoop_reports_le_one (fam j) (fuels j) 0)
    simpa [listenerStoppedCapacity] using hle

/-- Witness for C5: three forwards; the third `Accept()` call fails. -/
theorem C5_accept_failure_single_report_witness :
    acceptLoop (fun i => if i < 2 then .ok i else .error "closed") 3 0 =
      { acceptCalls := 2 + 1, spawned := (List.range 2).map (fun i => i),
        reports := ["Accept(): " ++ "closed"],
        terminated := true, listenerClosed := true } ∧
    (∀ (acc : Nat → Except String Nat) (f i : Nat),
        (acceptLoop acc f i).reports.length ≤ 1) ∧
    listenerStoppedCapacity confOne = confOne.forwards.length ∧
    (∀ (fam : Nat → Nat → Except String Nat) (fuels : Nat → Nat),
        ((List.range confOne.forwards.length).map fun j =>
            (acceptLoop (fam j) (fuels j) 0).reports.length).sum ≤
          listenerStoppedCapacity confOne) :=
  C5_accept_failure_single_report confOne
    (fun i => if i < 2 then .ok i else .error "closed") (fun i => i) "closed"
    2 3 (by omega)
    (fun j hj => by
      match j, hj with
      | 0, _ => rfl
      | 1, _ => rfl)
    rfl

/-! ## PipeWorker setup: `handleClient`

`handleClient` (lines 25–41): deferred `client.Close()`; dial the local
service; on dial error log and return; otherwise run `bidipipe.Pipe`,
logging its error if any.  It is a `void` goroutine body and performs no
channel operation, so nothing it does can reach the session, supervisor, or
another worker. -/

/-- Trace of one `handleClient` call. -/
structure HandleClientTrace where
  clientClosed : Bool
  pipeRan : Bool
  failureReports : List String
  loggedErrors : List String
deriving DecidableEq, Repr

/-- `handleClient`, with the local-dial outcome and (when it runs) the
result of `bidipipe.Pipe` supplied by the environment. -/
def handleClient (dialLocal : Except String Nat) (pipeErr : Option String) :
    HandleClientTrace :=
  match dialLocal with
  | .error e =>
      { clientClosed := true, pipeRan := false, failureReports := [],
        loggedErrors := ["dial INTO local service error: " ++ e] }
  | .ok _ =>
      match pipeErr with
      | some pe =>
          { clientClosed := true, pipeRan := true, failureReports := [],
            loggedErrors := [pe] }
      | none =>
          { clientClosed := true, pipeRan := true, failureReports := [],
            loggedErrors := [] }

/-- C6: if the worker's local dial fails, the accepted client connection is
closed and the worker terminates without relaying; the failure is logged
only — for every input, `handleClient` sends nothing on any channel, so no
error can propagate to the session, the supervisor, or another worker. -/
theorem C6_local_dial_failure_contained (e : String) (p : Option String) :
    handleClient (.error e) p =
      { clientClosed := true, pipeRan := false, failureReports := [],
        loggedErrors := ["dial INTO local service error: " ++ e] } ∧
    (∀ (d : Except String Nat) (q : Option String),
        (handleClient d q).failureReports = [] ∧
        (handleClient d q).clientClosed = true) := by
  refine ⟨rfl, fun d q => ?_⟩
  rcases d with e' | c <;> rcases q with _ | pe <;> simp [handleClient]

/-! ## SSH client configuration (`connectToSshAndServe`, lines 47–51)

`sshConfig := &ssh.ClientConfig{User: conf.SshServer.Username,
Auth: []ssh.AuthMethod{auth}, HostKeyCallback: ssh.InsecureIgnoreHostKey()}`,
where `mainLoop` (line 133) supplies `auth := ssh.PublicKeys(privateKey)`. -/

/-- The authentication methods of the `golang.org/x/crypto/ssh` library that
could appear in `ClientConfig.Auth`. -/
inductive AuthMethod where
  | publicKeys (signer : Nat)
  | password (pw : String)
  | keyboardInteractive
deriving DecidableEq, Repr

/-- The fields of `ssh.ClientConfig` set by `connectToSshAndServe`; the
host-key callback takes the host identity and the presented key and returns
`none` to accept or `some err` to reject. -/
structure ClientConfig where
  user : String
  auth : List AuthMethod
  hostKeyCallback : String → String → Option String

/-- `ssh.InsecureIgnoreHostKey()` (external library, documented semantics):
a callback that accepts every host identity and key. -/
def insecureIgnoreHostKey : String → String → Option String :=
  fun _ _ => none

/-- The `ssh.ClientConfig` literal built by `connectToSshAndServe`. -/
def mkSshClientConfig (conf : Configuration) (auth : AuthMethod) : ClientConfig :=
  { user := conf.sshServer.username, auth := [auth],
    hostKeyCallback := insecureIgnoreHostKey }

/-- The auth method `mainLoop` passes down: `ssh.PublicKeys(privateKey)`. -/
def mainLoopAuth (signer : Nat) : AuthMethod :=
  .publicKeys signer

/-- C8: every connect attempt authenticates with the auth list
`[PublicKeys signer]` — exactly one method, the supplied public-key signer,
hence no password or keyboard-interactive fallback — and the host-key
callback accepts any host identity and any key. -/
theorem C8_auth_and_hostkey (conf : Configuration) (signer : Nat) :
    (mkSshClientConfig conf (mainLoopAuth signer)).auth
        = [AuthMethod.publicKeys signer] ∧
    (∀ m ∈ (mkSshClientConfig conf (mainLoopAuth signer)).auth,
        ∃ s, m = AuthMethod.publicKeys s) ∧
    (∀ host key,
        (mkSshClientConfig conf (mainLoopAuth signer)).hostKeyCallback host key
          = none) ∧
    (mkSshClientConfig conf (mainLoopAuth signer)).user
        = conf.sshServer.username := by
  refine ⟨rfl, ?_, fun _ _ => rfl, rfl⟩
  intro m hm
  rcases List.mem_singleton.mp hm with rfl
  exact ⟨signer, rfl⟩

/-! ## TransportDialer: `connectSshRegularTcp` and `connectSshWebsocket`

`connectSshRegularTcp` (lines 217–229) dials TCP and passes the configured
`addr` itself to `sshClientForConn`.  `connectSshWebsocket` (lines 232–252)
dials the websocket, enables TCP keep-alive on the underlying connection
(returning a wrapped error on failure, without closing the websocket), then
parses the dial URL and passes `wsUrl.Hostname()` — not a placeholder — to
`sshClientForConn` together with the adapter-wrapped connection.
Addresses are modelled as `List Char`. -/

/-- Scan for the first `"://"` separator and return what follows (the part
of Go `url.Parse` relevant here). -/
def afterSchemeSep : List Char → Option (List Char)
  | [] => none
  | ':' :: '/' :: '/' :: rest => some rest
  | _ :: rest => afterSchemeSep rest

/-- Model of Go `net/url`: `url.Parse` followed by `URL.Hostname()` for
addresses of shape `scheme://host[:port][/path…]` (IPv6 literals not
modelled): the authority runs to the first `/`, and `Hostname()` strips the
`:port` suffix. -/
def urlHostname (addr : List Char) : Option (List Char) :=
  (afterSchemeSep addr).map fun rest =>
    (rest.takeWhile fun c => c ≠ '/').takeWhile fun c => c ≠ ':'

/-- Trace of `connectSshWebsocket`: whether the function closed the
websocket connection before returning, and the result — on success, the
host-identity string it passes to `sshClientForConn` (and from there to
`ssh.NewClientConn`). -/
structure WsConnectTrace where
  wsClosedBeforeReturn : Bool
  result : Except String (List Char)
deriving Repr

/-- `connectSshWebsocket` (lines 232–252), with the websocket dial outcome
and the `tcpkeepalive.Enable` outcome supplied by the environment.  No
branch of the source closes `wsConn` before returning. -/
def connectSshWebsocket (dialResult : Except String Unit)
    (keepaliveResult : Except String Unit) (addr : List Char) : WsConnectTrace :=
  match dialResult with
  | .error e => { wsClosedBeforeReturn := false, result := .error e }
  | .ok _ =>
    match keepaliveResult with
    | .error e =>
        { wsClosedBeforeReturn := false,
          result := .error ("tcpkeepalive: " ++ e) }
    | .ok _ =>
      match urlHostname addr with
      | none =>
          { wsClosedBeforeReturn := false, result := .error "url parse error" }
      | some h => { wsClosedBeforeReturn := false, result := .ok h }

/-- `connectSshRegularTcp` (lines 217–229): on dial success, the address
passed on to `sshClientForConn` is the configured `addr` itself. -/
def connectSshRegularTcp (dialResult : Except String Unit) (addr : List Char) :
    Except String (List Char) :=
  match dialResult with
  | .error e => .error e
  | .ok _ => .ok addr

/-- C9: on the websocket path the host identity handed to the session
handshake is the hostname parsed from the dial URL (concretely,
`ws://example.com:80/_ssh` yields `example.com`, not a placeholder), and on
the direct-TCP path it is the configured address itself. -/
theorem C9_host_identity (addr host : List Char)
    (hparse : urlHostname addr = some host) :
    (connectSshWebsocket (.ok ()) (.ok ()) addr).result = .ok host ∧
    (∀ a : List Char, connectSshRegularTcp (.ok ()) a = .ok a) ∧
    (connectSshWebsocket (.ok ()) (.ok ())
        "ws://example.com:80/_ssh".toList).result = .ok "example.com".toList := by
  refine ⟨?_, fun a => rfl, ?_⟩
  · simp [connectSshWebsocket, hparse]
  · rfl

/-- Witness for C9 at the concrete address `ws://example.com:80/_ssh`. -/
theorem C9_host_identity_witness :
    (connectSshWebsocket (.ok ()) (.ok ())
        "ws://example.com:80/_ssh".toList).result = .ok "example.com".toList ∧
    (∀ a : List Char, connectSshRegularTcp (.ok ()) a = .ok a) ∧
    (connectSshWebsocket (.ok ()) (.ok ())
        "ws://example.com:80/_ssh".toList).result = .ok "example.com".toList :=
  C9_host_identity "ws://example.com:80/_ssh".toList "example.com".toList rfl

/-- C10: if enabling TCP keep-alive on the websocket's underlying connection
fails, `connectSshWebsocket` returns the wrapped error for this attempt and
does not close the already-established websocket connection first. -/
theorem C10_keepalive_failure_no_close (addr : List Char) (e : String) :
    connectSshWebsocket (.ok ()) (.error e) addr =
      { wsClosedBeforeReturn := false,
        result := .error ("tcpkeepalive: " ++ e) } := by
  rfl

/-! ## StreamAdapter (`wsconnadapter`)

The adapter wrapping the websocket in `connectSshWebsocket`
(`wsconnadapter.New(wsConn)`) comes from the holepunch-server repository and
is not under `src/`; it is modelled here from the spec (§4.1). -/

namespace StreamAdapter

/-- Modelled from the spec: the reader-side state of the StreamAdapter
(`wsconnadapter`, whose implementation is not under `src/`): the unread
remainder of the last received message, and the queue of whole messages
sent by the writer but not yet received.  Bytes are `Nat`. -/
structure State where
  pending : List Nat
  msgs : List (List Nat)
deriving DecidableEq, Repr

/-- Modelled from the spec: each `write(buf)` forwards `buf` as exactly one
outgoing message, in call order, with no batching; this is the adapter
state seen by a reader after a sequence of writes on a fresh adapter. -/
def writeAll (writes : List (List Nat)) : State :=
  ⟨[], writes⟩

/-- Modelled from the spec: `read` with a buffer of size `n`: if unread
bytes from the previously received message are pending, satisfy the read
from them first; otherwise block for the next message and return up to `n`
of its bytes, keeping the rest pending; `none` is stream EOF (peer close). -/
def read (n : Nat) (st : State) : Option (List Nat × State) :=
  match st.pending, st.msgs with
  | [], [] => none
  | [], m :: ms => some (m.take n, ⟨m.drop n, ms⟩)
  | p :: ps, ms => some ((p :: ps).take n, ⟨(p :: ps).drop n, ms⟩)

/-- Perform one `read` per entry of `sizes` (each entry a reader buffer
size), concatenating the returned chunks in order. -/
def runReads (sizes : List Nat) (st : State) : List Nat × State :=
  match sizes with
  | [] => ([], st)
  | n :: rest =>
    match read n st with
    | none => ([], st)
    | some (chunk, st') =>
      let t := runReads rest st'
      (chunk ++ t.1, t.2)

/-- The bytes the adapter still owes the reader. -/
def State.owed (st : State) : List Nat :=
  st.pending ++ st.msgs.flatten

/-- An upper bound on the number of positive-size reads needed to drain the
adapter: one per queued message plus one per owed byte. -/
def State.readBudget (st : State) : Nat :=
  st.msgs.length + st.pending.length + st.msgs.flatten.length

/-- Reads never reorder or drop bytes: what has been read, followed by what
is still owed, is exactly what was owed at the start. -/
lemma runReads_owed (sizes : List Nat) :
    ∀ st : State,
      (runReads sizes st).1 ++ (runReads sizes st).2.owed = st.owed := by
  induction sizes with
  | nil => intro st; simp [runReads]
  | cons n rest ih =>
    intro st
    rcases st with ⟨pending, msgs⟩
    rcases pending with _ | ⟨p, ps⟩
    · rcases msgs with _ | ⟨m, ms⟩
      · simp [runReads, read]
      · simp only [runReads, read]
        rw [List.append_assoc, ih ⟨m.drop n, ms⟩]
        simp [State.owed, ← List.append_assoc]
    · simp only [runReads, read]
      rw [List.append_assoc, ih ⟨(p :: ps).drop n, msgs⟩]
      simp [State.owed, ← List.append_assoc]

/-- Any positive-size read on a non-drained adapter makes progress. -/
lemma read_budget_decreases (n : Nat) (st : State) (hn : 1 ≤ n)
    (hne : 0 < st.readBudget) :
    ∃ chunk st', read n st = some (chunk, st') ∧
      st'.readBudget < st.readBudget := by
  rcases st with ⟨pending, msgs⟩
  rcases pending with _ | ⟨p, ps⟩
  · rcases msgs with _ | ⟨m, ms⟩
    · simp [State.readBudget] at hne
    · refine ⟨m.take n, ⟨m.drop n, ms⟩, rfl, ?_⟩
      simp only [State.readBudget, List.flatten_cons, List.length_append,
        List.length_cons, List.length_nil, List.length_drop]
      omega
  · refine ⟨(p :: ps).take n, ⟨(p :: ps).drop n, msgs⟩, rfl, ?_⟩
    simp only [State.readBudget, List.length_cons, List.length_drop,
      List.length_nil]
    omega

/-- Enough positive-size reads drain the adapter completely. -/
lemma runReads_drains (sizes : List Nat) :
    ∀ st : State, (∀ n ∈ sizes, 1 ≤ n) → st.readBudget ≤ sizes.length →
      (runReads sizes st).2.owed = [] := by
  induction sizes with
  | nil =>
    intro st _ hb
    rcases st with ⟨pending, msgs⟩
    simp only [List.length_nil, Nat.le_zero] at hb
    have hp : pending = [] := by
      rcases pending with _ | _
      · rfl
      · simp [State.readBudget] at hb
    have hm : msgs = [] := by
      rcases msgs with _ | _
      · rfl
      · simp [State.readBudget] at hb
    simp [runReads, State.owed, hp, hm]
  | cons n rest ih =>
    intro st hpos hb
    rcases Nat.eq_zero_or_pos st.readBudget with h0 | hgt
    · have hp : st.pending = [] := by
        rcases st with ⟨_ | _, _⟩
        · rfl
        · simp [State.readBudget] at h0
      have hm : st.msgs = [] := by
        rcases st with ⟨pending, _ | _⟩
        · rfl
        · simp [State.readBudget] at h0
      rcases st with ⟨pending, msgs⟩
      simp only at hp hm
      subst hp hm
      simp [runReads, read, State.owed]
    · obtain ⟨chunk, st', hread, hdec⟩ :=
        read_budget_decreases n st (hpos n (by simp)) hgt
      have hb' : st'.readBudget ≤ rest.length := by
        simp only [List.length_cons] at hb
        omega
      have := ih st' (fun m hm => hpos m (by simp [hm])) hb'
      simp only [runReads, hread]
      exact this

/-- C4: for every sequence of writes through the adapter and every schedule
of positive reader buffer sizes long enough to drain it (reads smaller than
the buffered remainder included), the concatenation of the bytes read back
equals the concatenation of the written bytes exactly — no reordering, no
dropped remainder. -/
theorem C4_adapter_roundtrip (writes : List (List Nat)) (sizes : List Nat)
    (hpos : ∀ n ∈ sizes, 1 ≤ n)
    (hlen : writes.length + writes.flatten.length ≤ sizes.length) :
    (runReads sizes (writeAll writes)).1 = writes.flatten := by
  have h1 := runReads_owed sizes (writeAll writes)
  have h2 := runReads_drains sizes (writeAll writes) hpos
    (by simpa [writeAll, State.readBudget] using hlen)
  rw [h2, List.append_nil] at h1
  simpa [writeAll, State.owed] using h1

/-- Witness for C4: writes of sizes 1, 8 and 2 read back through buffer
sizes 1 and 7 (smaller than the 8-byte message) and larger ones. -/
theorem C4_adapter_roundtrip_witness :
    (runReads [1, 7, 1, 1, 4096, 2, 1, 1, 1, 1, 1, 1, 1, 1]
        (writeAll [[1], [2, 3, 4, 5, 6, 7, 8, 9], [10, 11]])).1 =
      ([[1], [2, 3, 4, 5, 6, 7, 8, 9], [10, 11]] : List (List Nat)).flatten :=
  C4_adapter_roundtrip [[1], [2, 3, 4, 5, 6, 7, 8, 9], [10, 11]]
    [1, 7, 1, 1, 4096, 2, 1, 1, 1, 1, 1, 1, 1, 1] (by decide) (by decide)

end StreamAdapter

/-! ## PipeWorker relay: `bidipipe.Pipe`

`handleClient` relays via `bidipipe.Pipe(client, "client", remote, "remote")`
(gokit library, not under `src/`); its two-directional relay is modelled
here from the spec (§4.5) as a small transition system. -/

/-- Modelled from the spec: the observable state of one PipeWorker's relay
(`bidipipe.Pipe`, whose implementation is not under `src/`): whether each
relay direction has ended (EOF or error), whether each of the two
connections has been closed, and whether the worker has terminated. -/
structure PipeState where
  dir1Stopped : Bool
  dir2Stopped : Bool
  acceptedClosed : Bool
  localClosed : Bool
  terminated : Bool
deriving DecidableEq, Repr

/-- Both directions running, nothing closed, worker live. -/
def PipeState.init : PipeState :=
  ⟨false, false, false, false, false⟩

/-- Modelled from the spec: the events of one relay pair — when either
direction ends, both connections are closed (forcing the other direction to
unblock); the worker may terminate only once both directions have stopped. -/
inductive PipeStep : PipeState → PipeState → Prop where
  | dir1End (s : PipeState) (h : s.dir1Stopped = false) :
      PipeStep s { s with dir1Stopped := true, acceptedClosed := true,
                          localClosed := true }
  | dir2End (s : PipeState) (h : s.dir2Stopped = false) :
      PipeStep s { s with dir2Stopped := true, acceptedClosed := true,
                          localClosed := true }
  | finish (s : PipeState) (h1 : s.dir1Stopped = true)
      (h2 : s.dir2Stopped = true) (h : s.terminated = false) :
      PipeStep s { s with terminated := true }

/-- States a relay pair can reach from `PipeState.init`. -/
def PipeReachable (s : PipeState) : Prop :=
  Relation.ReflTransGen PipeStep PipeState.init s

/-- C7: in every reachable relay state, once either direction has ended both
the accepted and the local connection are closed (so the other direction
unblocks), and a terminated worker has both directions stopped and both
connections closed — no relay task runs past its owning connection pair. -/
theorem C7_pipe_close_symmetry (s : PipeState) (h : PipeReachable s) :
    ((s.dir1Stopped = true ∨ s.dir2Stopped = true) →
        s.acceptedClosed = true ∧ s.localClosed = true) ∧
    (s.terminated = true →
        s.dir1Stopped = true ∧ s.dir2Stopped = true ∧
        s.acceptedClosed = true ∧ s.localClosed = true) := by
  induction h with
  | refl => simp [PipeState.init]
  | tail _ step ih =>
    cases step with
    | dir1End hb =>
      exact ⟨fun _ => ⟨rfl, rfl⟩, fun ht => ⟨rfl, (ih.2 ht).2.1, rfl, rfl⟩⟩
    | dir2End hb =>
      exact ⟨fun _ => ⟨rfl, rfl⟩, fun ht => ⟨(ih.2 ht).1, rfl, rfl, rfl⟩⟩
    | finish hb1 hb2 hb =>
      refine ⟨fun hd => ih.1 hd, fun _ => ⟨hb1, hb2, ?_, ?_⟩⟩
      · exact (ih.1 (Or.inl hb1)).1
      · exact (ih.1 (Or.inl hb1)).2

/-- Witness for C7: the fully-terminated state reached by ending direction
1, then direction 2, then finishing the worker. -/
theorem C7_pipe_close_symmetry_witness :
    (((PipeState.mk true true true true true).dir1Stopped = true ∨
        (PipeState.mk true true true true true).dir2Stopped = true) →
      (PipeState.mk true true true true true).acceptedClosed = true ∧
        (PipeState.mk true true true true true).localClosed = true) ∧
    ((PipeState.mk true true true true true).terminated = true →
      (PipeState.mk true true true true true).dir1Stopped = true ∧
        (PipeState.mk true true true true true).dir2Stopped = true ∧
        (PipeState.mk true true true true true).acceptedClosed = true ∧
        (PipeState.mk true true true true true).localClosed = true) :=
  C7_pipe_close_symmetry (PipeState.mk true true true true true)
    (Relation.ReflTransGen.tail
      (Relation.ReflTransGen.tail
        (Relation.ReflTransGen.tail Relation.ReflTransGen.refl
          (PipeStep.dir1End PipeState.init rfl))
        (PipeStep.dir2End (PipeState.mk true false true true false) rfl))
      (PipeStep.finish (PipeState.mk true true true true false) rfl rfl rfl))

end Holepunch
